import Mathlib

/-!
Shallow embedding of `src/cli/packages/graphcool-cli-engine/src/Client/Client.ts`
(the graphcool CLI GraphQL client wrapper) and of the server-side
`MigrationStepType` GraphQL type declarations appended to the same source file.

Network effects are made explicit: each model function takes the sequence of
responses (or the single response) the remote service would produce and mirrors
the control flow of the TypeScript source on it.  Exceptions are modelled with
`Except`, absent/null values with `Option`.
-/

namespace Client

/-- `sub` occurs as a contiguous run inside `l`. -/
def charsContain (sub : List Char) : List Char → Bool
  | [] => sub.isEmpty
  | c :: cs => List.isPrefixOf sub (c :: cs) || charsContain sub cs

/-- JS `msg.includes(sub)`: `sub` occurs as a contiguous substring of `msg`. -/
def strContains (msg sub : String) : Bool :=
  charsContain sub.data msg.data

/-- JS `msg.startsWith(pre)`. -/
def strStartsWith (msg pre : String) : Bool :=
  List.isPrefixOf pre.data msg.data

/-- An exception thrown by `graphql-request`: `e.message` plus the messages of
`e.response.errors` (the source reads `e.response.errors[0].message`). -/
structure RequestError where
  message : String
  responseErrors : List String
  deriving Repr, DecidableEq

/-- What the `catch` block of the `Client.client` wrapper (Client.ts lines
140-166) does with the outcome of `localClient.request`. -/
inductive ClientAction (α : Type) where
  /-- the underlying request succeeded and its payload is returned -/
  | ok (a : α)
  /-- `this.out.error(hint)` is invoked with a user-facing hint -/
  | userError (hint : String)
  /-- `return await this.client.request(query, variables)`: retry through the wrapper -/
  | retry
  /-- `throw e`: the original exception is re-raised unchanged -/
  | raised (e : RequestError)
  deriving Repr, DecidableEq

/-- `true` iff the action is a user-facing hint (`this.out.error`). -/
def ClientAction.isUserError {α : Type} : ClientAction α → Bool
  | .userError _ => true
  | _ => false

/-- The `request` member of the object returned by `get client()`
(Client.ts lines 136-167): the try/catch around `localClient.request`,
applied to the outcome `result` of the underlying request.
Chalk styling of the hint text is elided. -/
def clientRequest {α : Type} (result : Except RequestError α) : ClientAction α :=
  match result with
  | .ok a => .ok a
  | .error e =>
    if strContains e.message "No service with id" then
      .userError ((e.responseErrors.headD "") ++
        " Please check if you are logged in to the right account.")
    else if strStartsWith e.message "No valid session" then
      .retry
    else if strContains e.message "ECONNREFUSED" &&
        (strContains e.message "localhost" || strContains e.message "127.0.0.1") then
      .userError ("Could not connect to local cluster. Please use graphcool local up" ++
        " to start your local Graphcool cluster.")
    else
      .raised e

/-- Shape of one `migrationStatus` response polled by `waitForMigration`. -/
structure MigrationStatus where
  revision : Int
  hasBeenApplied : Bool
  deriving Repr, DecidableEq

/-- The loop guard of `waitForMigration` (Client.ts lines 501-504):
`migrationStatus.revision >= revision && migrationStatus.hasBeenApplied`. -/
def migrationDone (revision : Int) (s : MigrationStatus) : Bool :=
  decide (revision ≤ s.revision) && s.hasBeenApplied

/-- `Client.waitForMigration` (Client.ts lines 480-510) run against a finite
prefix `responses` of the service's `migrationStatus` answers, assuming every
poll succeeds.  Returns `some (i, ms)` when the loop returns at poll `i`
(0-based) having slept a total of `ms` milliseconds (the source sleeps a fixed
`500` via `setTimeout(r, 500)` after each failed check); `none` when the prefix
is exhausted with the loop still running. -/
def waitForMigration (revision : Int) : List MigrationStatus → Option (Nat × Nat)
  | [] => none
  | s :: rest =>
    if migrationDone revision s then some (0, 0)
    else (waitForMigration revision rest).map (fun p => (p.1 + 1, p.2 + 500))

/-- `Client.waitForMigration` where each poll may also throw (the polled
request is `this.client.request`, and `waitForMigration` wraps it in no
try/catch): `some (i, .ok ())` means the loop returned at poll `i`,
`some (i, .error e)` means poll `i` threw and the exception propagated out of
the loop, `none` means the finite prefix was exhausted. -/
def waitForMigrationE (revision : Int) :
    List (Except RequestError MigrationStatus) → Option (Nat × Except RequestError Unit)
  | [] => none
  | .error e :: _ => some (0, .error e)
  | .ok s :: rest =>
    if migrationDone revision s then some (0, .ok ())
    else (waitForMigrationE revision rest).map (fun p => (p.1 + 1, p.2))

/-- `Client.waitForLocalDocker` (Client.ts lines 452-478) run against a finite
prefix of introspection outcomes: the `catch` sets `valid = false` and the loop
repeats, so the result is `some i` at the first successful poll `i`, `none`
when the prefix holds only failures. -/
def waitForLocalDocker : List (Except RequestError Unit) → Option Nat
  | [] => none
  | .ok _ :: _ => some 0
  | .error _ :: rest => (waitForLocalDocker rest).map (· + 1)

/-- Index of the first element of the list satisfying `p`: the specification's
"first polled response whose revision is greater than or equal to the requested
revision and whose hasBeenApplied flag is true" is
`firstIndexWhere (migrationDone revision)`. -/
def firstIndexWhere {α : Type} (p : α → Bool) : List α → Option Nat
  | [] => none
  | x :: xs => if p x then some 0 else (firstIndexWhere p xs).map (· + 1)

theorem firstIndexWhere_spec {α : Type} (p : α → Bool) (xs : List α) :
    ∀ i, firstIndexWhere p xs = some i →
      ∃ h : i < xs.length, p (xs.get ⟨i, h⟩) = true ∧
        ∀ j (hj : j < i), p (xs.get ⟨j, Nat.lt_trans hj h⟩) = false := by
  induction xs with
  | nil => intro i h; simp [firstIndexWhere] at h
  | cons x xs ih =>
    intro i h
    by_cases hx : p x = true
    · simp [firstIndexWhere, hx] at h
      subst h
      exact ⟨Nat.succ_pos _, hx, fun j hj => absurd hj (Nat.not_lt_zero j)⟩
    · simp [firstIndexWhere, hx] at h
      obtain ⟨i', hi', rfl⟩ := h
      obtain ⟨hlt, hp, hbefore⟩ := ih i' hi'
      refine ⟨Nat.succ_lt_succ hlt, hp, ?_⟩
      intro j hj
      cases j with
      | zero => simpa using hx
      | succ j' => exact hbefore j' (Nat.lt_of_succ_lt_succ hj)

/-- A `Project` record as selected by `listProjects` / `getCluster`
(`name` and `stage`). -/
structure Project where
  name : String
  stage : String
  deriving Repr, DecidableEq

/-- The response payload of the `listProjects` query. -/
structure ListProjectsResponse where
  listProjects : List Project
  deriving Repr, DecidableEq

/-- `Client.listProjects` (Client.ts lines 382-395): destructures
`{ listProjects }` out of the response and returns it. -/
def listProjects (resp : ListProjectsResponse) : List Project :=
  resp.listProjects

/-- A Permanent Auth Token record as selected by `getPats`
(`id`, `name`, `token`). -/
structure PAT where
  id : String
  name : String
  token : String
  deriving Repr, DecidableEq

/-- One edge of the `permanentAuthTokens` connection. -/
structure PATEdge where
  node : PAT
  deriving Repr, DecidableEq

/-- The `permanentAuthTokens` connection of the `getPats` response;
`none` models a null `permanentAuthTokens`. -/
structure PermanentAuthTokens where
  edges : List PATEdge
  deriving Repr, DecidableEq

/-- `Client.getPats` (Client.ts lines 539-579): returns `[]` when
`permanentAuthTokens` is falsy, else `permanentAuthTokens.edges.map(edge => edge.node)`. -/
def getPats (permanentAuthTokens : Option PermanentAuthTokens) : List PAT :=
  match permanentAuthTokens with
  | none => []
  | some pats => pats.edges.map (fun edge => edge.node)

/-- One iteration of `getCluster`'s loop over `this.env.clusters`: the cluster
(modelled by its `name`) paired with the outcome of the `project` query against
it — `.error` when the request threw, `.ok none` when it returned a null
project, `.ok (some p)` when it returned project `p`. -/
structure ClusterPoll where
  clusterName : String
  result : Except RequestError (Option Project)
  deriving Repr

/-- The body of `getCluster`'s try/catch (Client.ts lines 401-424): the cluster
is pushed onto `foundClusters` exactly when the query returned a truthy project. -/
def projectFound (r : Except RequestError (Option Project)) : Bool :=
  match r with
  | .ok (some _) => true
  | _ => false

/-- The `foundClusters` array built by `Client.getCluster` (Client.ts lines
398-425), as the list of cluster names that reported the project. -/
def foundClusters (polls : List ClusterPoll) : List ClusterPoll :=
  polls.filter (fun p => projectFound p.result)

/-- `Client.getCluster` (Client.ts lines 397-439): `.ok (some c)` when exactly
one cluster reported the project, `.error` (naming the clusters) when several
did, `.ok none` when none did. -/
def getCluster (name stage : String) (polls : List ClusterPoll) :
    Except String (Option ClusterPoll) :=
  let found := foundClusters polls
  if found.length = 1 then
    .ok found[0]?
  else if found.length > 1 then
    let clusterNames := String.intercalate ", " (found.map (fun c => c.clusterName))
    .error ("The service name / stage combination \"" ++ name ++ "@" ++ stage ++
      "\" is ambigious. It exists in clusters " ++ clusterNames)
  else
    .ok none

/-- `Client.getClusterSafe` (Client.ts lines 441-450). -/
def getClusterSafe (name stage : String) (polls : List ClusterPoll) :
    Except String ClusterPoll :=
  match getCluster name stage polls with
  | .error e => .error e
  | .ok none => .error ("No cluster for \"" ++ name ++ "@" ++ stage ++
      "\" found. Please make sure to deploy the stage " ++ stage)
  | .ok (some c) => .ok c

/-- A `FunctionInfo` record, reduced to the field `getFunction` inspects. -/
structure FunctionInfo where
  name : String
  id : String
  deriving Repr, DecidableEq

/-- Leading and trailing whitespace removed, as JS `trim()`. -/
def trimChars (cs : List Char) : List Char :=
  ((cs.dropWhile Char.isWhitespace).reverse.dropWhile Char.isWhitespace).reverse

/-- `normalizeName` (Client.ts lines 841-843): `name.toLowerCase().trim()`,
modelled characterwise (ASCII lowering, as `Char.toLower`). -/
def normalizeName (name : String) : String :=
  ⟨trimChars (name.data.map Char.toLower)⟩

/-- `Client.getFunction` (Client.ts lines 624-634) applied to the function list
`functions` the `getFunctions` query returned: the first function whose
normalized name equals the normalized requested name, else `null`. -/
def getFunction (functions : List FunctionInfo) (functionName : String) :
    Option FunctionInfo :=
  functions.find? (fun fn => normalizeName fn.name == normalizeName functionName)

/-- `Client.download` (Client.ts lines 205-232) applied to the response body
`text`; `parse` abstracts the runtime's `JSON.parse`, `none` standing for a
parse failure.  On failure the source does `throw new Error(text)`. -/
def download {α : Type} (parse : String → Option α) (text : String) :
    Except String α :=
  match parse text with
  | some ast => .ok ast
  | none => .error text

/-- `Client.upload` (Client.ts lines 234-258): same body handling as `download`. -/
def upload {α : Type} (parse : String → Option α) (text : String) :
    Except String α :=
  match parse text with
  | some ast => .ok ast
  | none => .error text

/-- `Client.reset` (Client.ts lines 260-287): same body handling as `download`. -/
def reset {α : Type} (parse : String → Option α) (text : String) :
    Except String α :=
  match parse text with
  | some ast => .ok ast
  | none => .error text

/-- The inline fragments of `MIGRATION_FRAGMENT` (Client.ts lines 38-104):
each migration-step typename with the field names it selects, written
before aliasing (`cf_typeName: typeName` selects `typeName`,
`cf_isUnique: unique` selects `unique`, `cf_defaultValue: default` selects
`default`, `ce_values: values` selects `values`, and so on). -/
def migrationFragmentSelections : List (String × List String) :=
  [("CreateEnum", ["name", "values"]),
   ("CreateField", ["model", "name", "typeName", "isRequired", "isList",
      "unique", "relation", "default", "enum"]),
   ("CreateModel", ["name"]),
   ("CreateRelation", ["name", "leftModel", "rightModel"]),
   ("DeleteEnum", ["name"]),
   ("DeleteField", ["model", "name"]),
   ("DeleteModel", ["name"]),
   ("DeleteRelation", ["name"]),
   ("UpdateEnum", ["name", "newName", "values"]),
   ("UpdateField", ["model", "name", "newName", "typeName", "isRequired",
      "isList", "unique", "relation", "default", "enum"]),
   ("UpdateModel", ["name", "newName"])]

/-- The object types of `MigrationStepType.allTypes` (the Scala
`MigrationStepType` declarations, source lines 853-941), each with its declared
field names; the interface `Type` (GraphQL name `MigrationStep`, field `type`)
is listed first, as in `allTypes`. -/
def migrationStepAllTypes : List (String × List String) :=
  [("MigrationStep", ["type"]),
   ("CreateModel", ["name"]),
   ("DeleteModel", ["name"]),
   ("UpdateModel", ["name", "newName"]),
   ("CreateEnum", ["name", "values"]),
   ("DeleteEnum", ["name"]),
   ("UpdateEnum", ["name", "newName", "values"]),
   ("CreateField", ["model", "name", "typeName", "isRequired", "isList",
      "isUnique", "relation", "defaultValue", "enum"]),
   ("UpdateField", ["model", "name", "newName", "typeName", "isRequired",
      "isList", "isUnique", "relation", "defaultValue", "enum"]),
   ("DeleteField", ["model", "name"])]

/-- The declared fields of the server-side type named `t`, when `allTypes`
holds such a type. -/
def serverFieldsOf (t : String) : Option (List String) :=
  (migrationStepAllTypes.find? (fun st => st.1 == t)).map (fun st => st.2)

/-- The claim's notion of client/server agreement for the migration-step
contract: every migration-step kind named in the fragment has a type of the
same name in `allTypes`, and every field name the fragment selects on it
(before aliasing) is declared there. -/
def fragmentAgreesWithServer : Bool :=
  migrationFragmentSelections.all (fun tf =>
    match serverFieldsOf tf.1 with
    | some sfs => tf.2.all (fun f => sfs.contains f)
    | none => false)

/-! ## Theorems -/

/-- Claim C1: for every target revision and every sequence of successful
`migrationStatus` responses, `waitForMigration` returns exactly at the first
polled response satisfying `migrationDone` (revision reached and
`hasBeenApplied`), and the total time slept is the fixed 500 ms interval times
the number of failed polls — no backoff. -/
theorem waitForMigration_first_poll (revision : Int) (responses : List MigrationStatus) :
    waitForMigration revision responses =
      (firstIndexWhere (migrationDone revision) responses).map (fun i => (i, 500 * i)) := by
  induction responses with
  | nil => rfl
  | cons s rest ih =>
    by_cases hs : migrationDone revision s = true
    · simp [waitForMigration, firstIndexWhere, hs]
    · simp only [waitForMigration, firstIndexWhere, hs, Bool.false_eq_true, if_false, ih,
        Option.map_map]
      cases firstIndexWhere (migrationDone revision) rest with
      | none => rfl
      | some i =>
        simp [Function.comp]
        omega

/-- Claim C2: every exception whose message matches none of the three patterns
(`No service with id` substring, `No valid session` start,
`ECONNREFUSED` together with `localhost` or `127.0.0.1`) is re-raised
unchanged by the `Client.client` wrapper. -/
theorem clientRequest_reraises_unmatched {α : Type} (e : RequestError)
    (h1 : strContains e.message "No service with id" = false)
    (h2 : strStartsWith e.message "No valid session" = false)
    (h3 : (strContains e.message "ECONNREFUSED" &&
      (strContains e.message "localhost" || strContains e.message "127.0.0.1")) = false) :
    clientRequest (α := α) (.error e) = .raised e := by
  unfold clientRequest
  simp [h1, h2, h3]

/-- Witness for C2 at a concrete unmatched exception. -/
theorem clientRequest_reraises_unmatched_witness :
    clientRequest (α := Unit) (.error ⟨"Some unexpected failure", []⟩) =
      .raised ⟨"Some unexpected failure", []⟩ :=
  clientRequest_reraises_unmatched _ (by decide) (by decide) (by decide)

/-- Counterexample to claim C3 as stated: an exception whose message starts
with `No valid session` does not produce a user-facing hint — the wrapper
retries the request instead. -/
theorem clientRequest_no_valid_session_retries :
    (clientRequest (α := Unit) (.error ⟨"No valid session", []⟩)).isUserError = false ∧
    clientRequest (α := Unit) (.error ⟨"No valid session", []⟩) = .retry := by
  constructor <;> rfl

/-- Claim C3 (amended): a message containing `No service with id` yields a
user-facing hint; a message starting with `No valid session` (and not
containing `No service with id`) causes the request to be retried through the
wrapper rather than a hint or a re-raise; a message matching neither of those
but containing `ECONNREFUSED` together with `localhost` or `127.0.0.1` yields
a user-facing hint. -/
theorem clientRequest_hint_or_retry {α : Type} (e : RequestError) :
    (strContains e.message "No service with id" = true →
      (clientRequest (α := α) (.error e)).isUserError = true) ∧
    (strContains e.message "No service with id" = false →
      strStartsWith e.message "No valid session" = true →
      clientRequest (α := α) (.error e) = .retry) ∧
    (strContains e.message "No service with id" = false →
      strStartsWith e.message "No valid session" = false →
      (strContains e.message "ECONNREFUSED" &&
        (strContains e.message "localhost" || strContains e.message "127.0.0.1")) = true →
      (clientRequest (α := α) (.error e)).isUserError = true) := by
  refine ⟨fun h1 => ?_, fun h1 h2 => ?_, fun h1 h2 h3 => ?_⟩
  · simp [clientRequest, h1, ClientAction.isUserError]
  · simp [clientRequest, h1, h2]
  · simp [clientRequest, h1, h2, h3, ClientAction.isUserError]

/-- Witness for C3 (amended) at one concrete message per pattern. -/
theorem clientRequest_hint_or_retry_witness :
    (clientRequest (α := Unit)
      (.error ⟨"No service with id abc", ["m"]⟩)).isUserError = true ∧
    clientRequest (α := Unit) (.error ⟨"No valid session token", []⟩) = .retry ∧
    (clientRequest (α := Unit)
      (.error ⟨"connect ECONNREFUSED 127.0.0.1:60000", []⟩)).isUserError = true :=
  ⟨(clientRequest_hint_or_retry _).1 (by decide),
   (clientRequest_hint_or_retry _).2.1 (by decide) (by decide),
   (clientRequest_hint_or_retry _).2.2 (by decide) (by decide) (by decide)⟩

/-- Counterexample to claim C4 as stated: `waitForMigration` does not continue
polling past a polled request that throws — the exception propagates and the
run ends at the throwing poll, even though a later response satisfies the
condition. -/
theorem waitForMigrationE_exits_on_error :
    waitForMigrationE 1
      [Except.error ⟨"request to cluster failed", []⟩, Except.ok ⟨5, true⟩] =
      some (0, Except.error ⟨"request to cluster failed", []⟩) := rfl

/-- Claim C4 (amended): `waitForLocalDocker` never exits on an error — it
continues polling past every exception and terminates only by a successful
poll, every earlier poll having thrown; `waitForMigration`, which wraps its
polled request in no try/catch, propagates a thrown exception (ending the
loop), and returns normally only at a poll whose response satisfies the
revision-and-applied condition. -/
theorem wait_loops_error_behavior (revision : Int) :
    (∀ (e : RequestError) (rest : List (Except RequestError Unit)),
      waitForLocalDocker (.error e :: rest) = (waitForLocalDocker rest).map (· + 1)) ∧
    (∀ (rs : List (Except RequestError Unit)) (i : Nat),
      waitForLocalDocker rs = some i →
      ∃ h : i < rs.length, rs.get ⟨i, h⟩ = .ok () ∧
        ∀ j (hj : j < i), ∃ e, rs.get ⟨j, Nat.lt_trans hj h⟩ = .error e) ∧
    (∀ (e : RequestError) (rest : List (Except RequestError MigrationStatus)),
      waitForMigrationE revision (.error e :: rest) = some (0, .error e)) ∧
    (∀ (rs : List (Except RequestError MigrationStatus)) (i : Nat),
      waitForMigrationE revision rs = some (i, .ok ()) →
      ∃ h : i < rs.length, ∃ s, rs.get ⟨i, h⟩ = .ok s ∧
        migrationDone revision s = true) := by
  refine ⟨fun e rest => rfl, ?_, fun e rest => rfl, ?_⟩
  · intro rs
    induction rs with
    | nil => intro i h; simp [waitForLocalDocker] at h
    | cons r rest ih =>
      intro i h
      match r with
      | .ok u =>
        simp [waitForLocalDocker] at h
        subst h
        exact ⟨Nat.succ_pos _, rfl, fun j hj => absurd hj (Nat.not_lt_zero j)⟩
      | .error e =>
        simp [waitForLocalDocker] at h
        obtain ⟨i', hi', rfl⟩ := h
        obtain ⟨hlt, hok, hbefore⟩ := ih i' hi'
        refine ⟨Nat.succ_lt_succ hlt, hok, ?_⟩
        intro j hj
        cases j with
        | zero => exact ⟨e, rfl⟩
        | succ j' => exact hbefore j' (Nat.lt_of_succ_lt_succ hj)
  · intro rs
    induction rs with
    | nil => intro i h; simp [waitForMigrationE] at h
    | cons r rest ih =>
      intro i h
      match r with
      | .error e => simp [waitForMigrationE] at h
      | .ok s =>
        by_cases hs : migrationDone revision s = true
        · simp [waitForMigrationE, hs] at h
          subst h
          exact ⟨Nat.succ_pos _, s, rfl, hs⟩
        · simp only [waitForMigrationE, hs, Bool.false_eq_true, if_false,
            Option.map_eq_some'] at h
          obtain ⟨⟨p1, p2⟩, hp, hpe⟩ := h
          have hi : p1 + 1 = i := congrArg Prod.fst hpe
          have hok : p2 = Except.ok () := congrArg Prod.snd hpe
          subst hok
          obtain ⟨hlt, s', hs', hdone⟩ := ih p1 hp
          subst hi
          exact ⟨Nat.succ_lt_succ hlt, s', hs', hdone⟩

/-- Witness for C4 (amended), exercising all four conjuncts at concrete runs. -/
theorem wait_loops_error_behavior_witness :
    waitForLocalDocker [Except.error ⟨"nope", []⟩, Except.ok ()] =
      (waitForLocalDocker [Except.ok ()]).map (· + 1) ∧
    (∃ h : 0 < ([Except.ok ()] : List (Except RequestError Unit)).length,
      ([Except.ok ()] : List (Except RequestError Unit)).get ⟨0, h⟩ = .ok () ∧
      ∀ j (hj : j < 0), ∃ e, ([Except.ok ()] : List (Except RequestError Unit)).get
        ⟨j, Nat.lt_trans hj h⟩ = .error e) ∧
    waitForMigrationE 1 [Except.error ⟨"nope", []⟩] =
      some (0, Except.error ⟨"nope", []⟩) ∧
    (∃ h : 0 < ([Except.ok ⟨2, true⟩] :
        List (Except RequestError MigrationStatus)).length,
      ∃ s, ([Except.ok ⟨2, true⟩] : List (Except RequestError MigrationStatus)).get
        ⟨0, h⟩ = .ok s ∧ migrationDone 1 s = true) :=
  ⟨(wait_loops_error_behavior 1).1 ⟨"nope", []⟩ [Except.ok ()],
   (wait_loops_error_behavior 1).2.1 [Except.ok ()] 0 rfl,
   (wait_loops_error_behavior 1).2.2.1 ⟨"nope", []⟩ [],
   (wait_loops_error_behavior 1).2.2.2 [Except.ok ⟨2, true⟩] 0 rfl⟩

theorem waitForMigration_eq_none (revision : Int) (rs : List MigrationStatus)
    (h : ∀ s ∈ rs, migrationDone revision s = false) :
    waitForMigration revision rs = none := by
  induction rs with
  | nil => rfl
  | cons s rest ih =>
    simp [waitForMigration, h s (List.mem_cons_self s rest),
      ih (fun x hx => h x (List.mem_cons_of_mem s hx))]

theorem waitForMigration_isSome (revision : Int) (rs : List MigrationStatus)
    (s : MigrationStatus) (hmem : s ∈ rs) (hdone : migrationDone revision s = true) :
    (waitForMigration revision rs).isSome = true := by
  induction rs with
  | nil => cases hmem
  | cons x rest ih =>
    by_cases hx : migrationDone revision x = true
    · simp [waitForMigration, hx]
    · rcases List.mem_cons.mp hmem with rfl | hmem'
      · exact absurd hdone hx
      · simp [waitForMigration, hx]
        exact ih hmem'

/-- Claim C5: `waitForMigration` has no timeout and no iteration bound — on a
response stream in which no response ever satisfies the revision-and-applied
condition, every finite prefix leaves the loop still running (it never
terminates), while as soon as some response satisfies it, a finite prefix
makes the loop return. -/
theorem waitForMigration_no_timeout (revision : Int) (f : Nat → MigrationStatus) :
    ((∀ n, migrationDone revision (f n) = false) →
      ∀ n, waitForMigration revision ((List.range n).map f) = none) ∧
    (∀ N, migrationDone revision (f N) = true →
      ∃ p, waitForMigration revision ((List.range (N + 1)).map f) = some p) := by
  constructor
  · intro hall n
    apply waitForMigration_eq_none
    intro s hs
    simp only [List.mem_map] at hs
    obtain ⟨k, -, rfl⟩ := hs
    exact hall k
  · intro N hN
    have hmem : f N ∈ (List.range (N + 1)).map f :=
      List.mem_map_of_mem f (List.mem_range.mpr (Nat.lt_succ_self N))
    exact Option.isSome_iff_exists.mp
      (waitForMigration_isSome revision _ (f N) hmem hN)

/-- Witness for C5: a stream that never satisfies the condition against a
prefix of length 3, and a stream whose first response satisfies it. -/
theorem waitForMigration_no_timeout_witness :
    waitForMigration 1 ((List.range 3).map (fun _ => ⟨0, false⟩)) = none ∧
    ∃ p, waitForMigration 1 ((List.range (0 + 1)).map (fun _ => ⟨2, true⟩)) = some p :=
  ⟨(waitForMigration_no_timeout 1 _).1 (fun _ => by decide) 3,
   (waitForMigration_no_timeout 1 _).2 0 (by decide)⟩

/-- Claim C6: entity records are passed through unmodified — `listProjects`
returns exactly the `listProjects` array of the response, and `getPats`
returns exactly the `node` of each edge of `permanentAuthTokens.edges`, in
order, no record altered (elementwise equality at every index), with `[]` for
a null connection. -/
theorem records_passed_through (resp : ListProjectsResponse)
    (pats : PermanentAuthTokens) :
    listProjects resp = resp.listProjects ∧
    getPats none = [] ∧
    ∀ i : Nat, (getPats (some pats))[i]? = (pats.edges[i]?).map (fun edge => edge.node) := by
  refine ⟨rfl, rfl, fun i => ?_⟩
  simp [getPats]

/-- Counterexample to claim C7 as stated: the client/server migration-step
contract does not agree — `CreateRelation` and `DeleteRelation` are named by
the fragment but have no type in `allTypes`, and the fragment's pre-alias
field names `unique` and `default` on `CreateField` and `UpdateField` are not
declared by the server types (which declare `isUnique` and `defaultValue`). -/
theorem migration_contract_mismatch :
    fragmentAgreesWithServer = false ∧
    serverFieldsOf "CreateRelation" = none ∧
    serverFieldsOf "DeleteRelation" = none ∧
    (serverFieldsOf "CreateField").map (fun fs => fs.contains "unique") = some false ∧
    (serverFieldsOf "CreateField").map (fun fs => fs.contains "default") = some false ∧
    (serverFieldsOf "UpdateField").map (fun fs => fs.contains "unique") = some false ∧
    (serverFieldsOf "UpdateField").map (fun fs => fs.contains "default") = some false := by
  refine ⟨?_, ?_, ?_, ?_, ?_, ?_, ?_⟩ <;> rfl

/-- The field-name renaming the server side uses relative to the fragment's
pre-alias selections on `CreateField` and `UpdateField`. -/
def serverFieldName (f : String) : String :=
  if f == "unique" then "isUnique"
  else if f == "default" then "defaultValue"
  else f

/-- Claim C7 (amended): every migration-step kind named in the fragment other
than `CreateRelation` and `DeleteRelation` (which have no type in `allTypes`)
has a type of the same name in `allTypes` declaring every field the fragment
selects on it — up to the renaming `unique` to `isUnique` and `default` to
`defaultValue` — and conversely every object type of `allTypes` is named by an
inline fragment. -/
theorem migration_contract_amended :
    (migrationFragmentSelections.all (fun tf =>
      match serverFieldsOf tf.1 with
      | some sfs => tf.2.all (fun f => sfs.contains (serverFieldName f))
      | none => tf.1 == "CreateRelation" || tf.1 == "DeleteRelation")) = true ∧
    ((migrationStepAllTypes.drop 1).all (fun st =>
      migrationFragmentSelections.any (fun tf => tf.1 == st.1))) = true := by
  constructor <;> rfl

theorem projectFound_iff (r : Except RequestError (Option Project)) :
    projectFound r = true ↔ ∃ proj, r = Except.ok (some proj) := by
  match r with
  | .error e => simp [projectFound]
  | .ok none => simp [projectFound]
  | .ok (some proj) => simp [projectFound]

/-- Claim C8: `getCluster` counts a cluster into `foundClusters` exactly when
its query returned a project (a throwing cluster is treated as not containing
it), returns the single found cluster when exactly one reports the project,
`null` when none does, and throws an error naming the found clusters when
several do. -/
theorem getCluster_spec (name stage : String) (polls : List ClusterPoll) :
    (∀ p, p ∈ foundClusters polls ↔
      p ∈ polls ∧ ∃ proj, p.result = Except.ok (some proj)) ∧
    (∀ c, foundClusters polls = [c] → getCluster name stage polls = .ok (some c)) ∧
    (foundClusters polls = [] → getCluster name stage polls = .ok none) ∧
    ((foundClusters polls).length > 1 →
      getCluster name stage polls = .error
        ("The service name / stage combination \"" ++ name ++ "@" ++ stage ++
          "\" is ambigious. It exists in clusters " ++
          String.intercalate ", "
            ((foundClusters polls).map (fun c => c.clusterName)))) := by
  refine ⟨?_, ?_, ?_, ?_⟩
  · intro p
    rw [foundClusters, List.mem_filter, projectFound_iff]
  · intro c h
    simp [getCluster, h]
  · intro h
    simp [getCluster, h]
  · intro h
    have h1 : ¬ (foundClusters polls).length = 1 := by omega
    simp [getCluster, h1, h]

/-- Witness for C8: one run per outcome — a single found cluster (the other
throwing), no found cluster, and an ambiguous pair. -/
theorem getCluster_spec_witness :
    getCluster "n" "s"
      [⟨"c1", .ok (some ⟨"n", "s"⟩)⟩, ⟨"c2", .error ⟨"down", []⟩⟩] =
      .ok (some ⟨"c1", .ok (some ⟨"n", "s"⟩)⟩) ∧
    getCluster "n" "s" [⟨"c2", .error ⟨"down", []⟩⟩] = .ok none ∧
    getCluster "n" "s"
      [⟨"c1", .ok (some ⟨"n", "s"⟩)⟩, ⟨"c2", .ok (some ⟨"n", "s"⟩)⟩] =
      .error
        ("The service name / stage combination \"" ++ "n" ++ "@" ++ "s" ++
          "\" is ambigious. It exists in clusters " ++
          String.intercalate ", "
            ((foundClusters
              [⟨"c1", .ok (some ⟨"n", "s"⟩)⟩, ⟨"c2", .ok (some ⟨"n", "s"⟩)⟩]).map
              (fun c => c.clusterName))) :=
  ⟨(getCluster_spec "n" "s" _).2.1 ⟨"c1", .ok (some ⟨"n", "s"⟩)⟩ rfl,
   (getCluster_spec "n" "s" _).2.2.1 rfl,
   (getCluster_spec "n" "s" _).2.2.2 (by decide)⟩

/-- Claim C9: `getFunction` returns the first function of the list whose
lowercased, trimmed name equals the lowercased, trimmed requested name, and
`null` when no function matches. -/
theorem getFunction_first_match (functions : List FunctionInfo)
    (functionName : String) :
    (∀ fn, getFunction functions functionName = some fn →
      ∃ i, ∃ h : i < functions.length, functions.get ⟨i, h⟩ = fn ∧
        normalizeName fn.name = normalizeName functionName ∧
        ∀ j (hj : j < i), normalizeName ((functions.get ⟨j, Nat.lt_trans hj h⟩).name) ≠
          normalizeName functionName) ∧
    (getFunction functions functionName = none →
      ∀ fn ∈ functions, normalizeName fn.name ≠ normalizeName functionName) := by
  constructor
  · intro fn
    induction functions with
    | nil => intro h; simp [getFunction] at h
    | cons x rest ih =>
      intro h
      by_cases hx : normalizeName x.name = normalizeName functionName
      · rw [getFunction, List.find?_cons_of_pos _ (by simpa using hx)] at h
        cases h
        exact ⟨0, Nat.succ_pos _, rfl, hx,
          fun j hj => absurd hj (Nat.not_lt_zero j)⟩
      · rw [getFunction, List.find?_cons_of_neg _ (by simpa using hx)] at h
        obtain ⟨i, hlt, hget, hname, hbefore⟩ := ih h
        refine ⟨i + 1, Nat.succ_lt_succ hlt, hget, hname, ?_⟩
        intro j hj
        cases j with
        | zero => exact hx
        | succ j' => exact hbefore j' (Nat.lt_of_succ_lt_succ hj)
  · intro h fn hmem
    rw [getFunction, List.find?_eq_none] at h
    simpa using h fn hmem

/-- Witness for C9: the requested name `FOO` matches the padded, mixed-case
name at index 1 and no earlier one; a list without a match yields `none`. -/
theorem getFunction_first_match_witness :
    (∃ i, ∃ h : i < ([⟨"bar", "1"⟩, ⟨" Foo ", "2"⟩] : List FunctionInfo).length,
      ([⟨"bar", "1"⟩, ⟨" Foo ", "2"⟩] : List FunctionInfo).get ⟨i, h⟩ = ⟨" Foo ", "2"⟩ ∧
      normalizeName (FunctionInfo.name ⟨" Foo ", "2"⟩) = normalizeName "FOO" ∧
      ∀ j (hj : j < i),
        normalizeName ((([⟨"bar", "1"⟩, ⟨" Foo ", "2"⟩] : List FunctionInfo).get
          ⟨j, Nat.lt_trans hj h⟩).name) ≠ normalizeName "FOO") ∧
    ∀ fn ∈ ([⟨"bar", "1"⟩] : List FunctionInfo),
      normalizeName fn.name ≠ normalizeName "FOO" :=
  ⟨(getFunction_first_match [⟨"bar", "1"⟩, ⟨" Foo ", "2"⟩] "FOO").1
      ⟨" Foo ", "2"⟩ (by decide),
   (getFunction_first_match [⟨"bar", "1"⟩] "FOO").2 (by decide)⟩

/-- Claim C10: `download`, `upload` and `reset` return the body text parsed as
JSON when it parses, and otherwise throw an `Error` whose message is exactly
the raw, unparsed response text. -/
theorem body_json_handling {α : Type} (parse : String → Option α) (text : String) :
    (∀ ast, parse text = some ast →
      download parse text = .ok ast ∧ upload parse text = .ok ast ∧
        reset parse text = .ok ast) ∧
    (parse text = none →
      download parse text = .error text ∧ upload parse text = .error text ∧
        reset parse text = .error text) := by
  refine ⟨fun ast h => ?_, fun h => ?_⟩ <;> simp [download, upload, reset, h]

/-- Witness for C10 at a parsing and a non-parsing body. -/
theorem body_json_handling_witness :
    (download (fun _ => some 42) "[1]" = .ok 42 ∧
      upload (fun _ => some 42) "[1]" = .ok 42 ∧
      reset (fun _ => some 42) "[1]" = .ok 42) ∧
    (download (fun _ => (none : Option Nat)) "oops" = .error "oops" ∧
      upload (fun _ => (none : Option Nat)) "oops" = .error "oops" ∧
      reset (fun _ => (none : Option Nat)) "oops" = .error "oops") :=
  ⟨(body_json_handling _ "[1]").1 42 rfl, (body_json_handling _ "oops").2 rfl⟩

end Client
